import Mathlib

/-!
Shallow embedding of the ToDo-Master repository (Express backend in
`src/backend/server.js`, React frontend in `src/frontend/src/App.jsx`).

The backend file contains two near-identical copies of the server module;
both are embedded below (the second copy's definitions carry suffix `2`).
JavaScript strings are modelled by `String`, JS arrays by `List`,
`undefined`-able values by `Option`, and the spread-into-`Set`
deduplication `[...new Set(xs)]` by `jsSetDedup` (first occurrence kept,
insertion order preserved, exactly as JS `Set` iteration order).
-/

/-- Whitespace recognised by JS `String.prototype.trim` (ASCII part:
space, tab, line feed, carriage return, vertical tab, form feed). -/
def isJsSpace (c : Char) : Bool :=
  c == ' ' || c == '\t' || c == '\n' || c == '\r' || c == '\x0b' || c == '\x0c'

/-- Model of JS `s.trim()`: drop leading and trailing whitespace. -/
def jsTrim (s : String) : String :=
  String.mk (((s.data.dropWhile isJsSpace).reverse.dropWhile isJsSpace).reverse)

/-- Drop a single leading slash from a (reversed) character list. -/
def dropSlashHead : List Char → List Char
  | [] => []
  | c :: t => if c == '/' then t else c :: t

/-- Model of JS `o.replace(/\/$/, '')`: strip exactly one trailing `/`. -/
def stripTrailingSlash (s : String) : String :=
  String.mk (dropSlashHead s.data.reverse).reverse

/-- Does the string end in the character `c`? -/
def endsInChar (s : String) (c : Char) : Bool :=
  match s.data.reverse with
  | [] => false
  | d :: _ => d == c

/-- Does the string end in two consecutive `/` characters? -/
def endsInSlashSlash (s : String) : Bool :=
  match s.data.reverse with
  | c :: d :: _ => c == '/' && d == '/'
  | _ => false

/-- Model of JS `!!v` for a string-or-undefined environment value:
`undefined` and the empty string are falsy. -/
def jsTruthyStr : Option String → Bool
  | none => false
  | some s => s != ""

/-- First-occurrence deduplication, parameterised by the set of elements
already seen. -/
def dedupAux (seen : List String) : List String → List String
  | [] => []
  | x :: xs => if x ∈ seen then dedupAux seen xs else x :: dedupAux (x :: seen) xs

/-- Model of JS `[...new Set(xs)]`: keep the first occurrence of each
element, in insertion order. -/
def jsSetDedup (l : List String) : List String :=
  dedupAux [] l

/-- Model of `server.js` lines 22-24 (first copy): the module-level
`CONFIG_ALLOWED_ORIGINS`, as a function of the already-split
`ALLOWED_ORIGINS` value: `split(',').filter(Boolean).map(s => s.trim())`. -/
def CONFIG_ALLOWED_ORIGINS (allowedOriginsSplit : List String) : List String :=
  (allowedOriginsSplit.filter (fun s => s != "")).map jsTrim

/-- Model of `configureAllowedOrigins` (first copy, `server.js` lines
30-40) as a state transformer on the module-level mutable array
`CONFIG_ALLOWED_ORIGINS`: when `NODE_ENV == 'development'` the function
pushes `http://localhost:5173` onto that array, then returns
`[...new Set([...CONFIG_ALLOWED_ORIGINS])].filter(Boolean).map(o => o.replace(/\/$/, ''))`.
The first component is the array after the call, the second the returned
list. -/
def configureAllowedOriginsS (configAllowedOrigins : List String)
    (configNodeEnv : String) : List String × List String :=
  let pushed :=
    if configNodeEnv = "development"
    then configAllowedOrigins ++ ["http://localhost:5173"]
    else configAllowedOrigins
  (pushed, ((jsSetDedup pushed).filter (fun o => o != "")).map stripTrailingSlash)

/-- The spec's `build(baseOrigins, env)`: the value returned by a single
call of `configureAllowedOrigins` on the configuration derived from the
raw base-origin sequence (lines 22-24 followed by lines 30-40). -/
def configureAllowedOrigins (base : List String) (env : String) : List String :=
  (configureAllowedOriginsS (CONFIG_ALLOWED_ORIGINS base) env).2

-- Second copy of the module (`server.js` lines 152-169), embedded
-- independently; textually the origin logic coincides with the first copy.

/-- Model of `server.js` lines 152-154 (second copy): module-level
`CONFIG_ALLOWED_ORIGINS` of the second module. -/
def CONFIG_ALLOWED_ORIGINS2 (allowedOriginsSplit : List String) : List String :=
  (allowedOriginsSplit.filter (fun s => s != "")).map jsTrim

/-- Model of `configureAllowedOrigins` (second copy, `server.js` lines
158-169) as a state transformer, exactly as for the first copy. -/
def configureAllowedOriginsS2 (configAllowedOrigins : List String)
    (configNodeEnv : String) : List String × List String :=
  let pushed :=
    if configNodeEnv = "development"
    then configAllowedOrigins ++ ["http://localhost:5173"]
    else configAllowedOrigins
  (pushed, ((jsSetDedup pushed).filter (fun o => o != "")).map stripTrailingSlash)

/-- The second copy's `build(baseOrigins, env)`. -/
def configureAllowedOrigins2 (base : List String) (env : String) : List String :=
  (configureAllowedOriginsS2 (CONFIG_ALLOWED_ORIGINS2 base) env).2

/-- Does a (reversed) character list start with `/`, i.e. does the original
string end with `/`? -/
def headIsSlash : List Char → Bool
  | [] => false
  | c :: _ => c == '/'

/-- Ending in `/`, stated on the string itself. -/
def endsInSlash (s : String) : Bool :=
  headIsSlash s.data.reverse

/-- Outcome of the `cors` origin callback: `callback(null, true)` allows the
request, `callback(new Error(msg))` rejects it with a descriptive error. -/
inductive CorsResult where
  | allow : CorsResult
  | reject (msg : String) : CorsResult
deriving DecidableEq

/-- Model of the `origin` callback passed to `cors` (`server.js` lines
57-64): `origin` is `undefined` (`none`) for requests without an `Origin`
header; `!origin` also treats the empty string as absent; otherwise the
origin must be a member of `allowedOrigins`. -/
def corsOriginCheck (allowedOrigins : List String) (origin : Option String) : CorsResult :=
  match origin with
  | none => CorsResult.allow
  | some o =>
    if o = "" then CorsResult.allow
    else if o ∈ allowedOrigins then CorsResult.allow
    else CorsResult.reject ("CORS blocked for origin: " ++ o)

/-- JSON values, as assembled by the handlers and serialised by
`res.json`. Numeric fields of the health payload are modelled as integers
(their values are never inspected by the documented contract). -/
inductive JsValue where
  | str (s : String) : JsValue
  | num (n : Int) : JsValue
  | bool (b : Bool) : JsValue
  | arr (elems : List JsValue) : JsValue
  | obj (fields : List (String × JsValue)) : JsValue

/-- Field lookup on a JSON object (`none` on non-objects or absent keys). -/
def JsValue.getField : JsValue → String → Option JsValue
  | JsValue.obj fields, k => fields.lookup k
  | _, _ => none

/-- Lookup along a path of keys, e.g. `["gemini", "model"]`. -/
def JsValue.getPath : JsValue → List String → Option JsValue
  | j, [] => some j
  | j, k :: ks =>
    match j.getField k with
    | some v => JsValue.getPath v ks
    | none => none

/-- Body of an HTTP response: `res.send` of a plain string, or `res.json`
of a JSON value. -/
inductive ResBody where
  | text (s : String) : ResBody
  | json (v : JsValue) : ResBody

/-- An HTTP response: status code (Express default 200 unless overridden
by `res.status`) and body. -/
structure HttpResponse where
  status : Nat
  body : ResBody

/-- An inbound HTTP request, reduced to what the routing table inspects. -/
structure HttpRequest where
  method : String
  path : String

/-- Ambient server state read by the handlers: static configuration plus
the per-request facts (current timestamp, process uptime). -/
structure ServerCtx where
  configPort : Int
  configNodeEnv : String
  allowedOrigins : List String
  googleApiKey : Option String
  timestamp : String
  uptime : Int

/-- Model of `handleRoot` (`server.js` lines 72-75): send the fixed
greeting with the default status 200. -/
def handleRoot : HttpResponse :=
  HttpResponse.mk 200 (ResBody.text "welcome to the default page")

/-- Model of the `healthStatus` object literal built by
`handleHealthCheck` (`server.js` lines 85-101). -/
def healthStatus (ctx : ServerCtx) : JsValue :=
  JsValue.obj [
    ("status", JsValue.str "healthy"),
    ("timestamp", JsValue.str ctx.timestamp),
    ("api", JsValue.obj [
      ("running", JsValue.bool true),
      ("port", JsValue.num ctx.configPort),
      ("env", JsValue.str ctx.configNodeEnv),
      ("allowedOrigins", JsValue.arr (ctx.allowedOrigins.map JsValue.str))]),
    ("gemini", JsValue.obj [
      ("configured", JsValue.bool (jsTruthyStr ctx.googleApiKey)),
      ("model", JsValue.str
        (if jsTruthyStr ctx.googleApiKey then "gemini-2.5-flash" else "unavailable"))]),
    ("uptime", JsValue.num ctx.uptime)]

/-- Model of `handleHealthCheck` (`server.js` lines 78-110): respond 200
with the `healthStatus` JSON. -/
def handleHealthCheck (ctx : ServerCtx) : HttpResponse :=
  HttpResponse.mk 200 (ResBody.json (healthStatus ctx))

/-- Model of the catch-all middleware (`server.js` lines 119-123):
`res.status(404).json({ error: 'Not found' })`. -/
def notFoundResponse : HttpResponse :=
  HttpResponse.mk 404 (ResBody.json (JsValue.obj [("error", JsValue.str "Not found")]))

/-- Model of the Express routing table (`server.js` lines 114-123):
`app.get('/', handleRoot)`, `app.get('/health', handleHealthCheck)`, then
the catch-all 404 middleware for everything unmatched. -/
def appRoute (ctx : ServerCtx) (req : HttpRequest) : HttpResponse :=
  if req.method = "GET" ∧ req.path = "/" then handleRoot
  else if req.method = "GET" ∧ req.path = "/health" then handleHealthCheck ctx
  else notFoundResponse

/-- A task of the frontend list (`App.jsx` line 40): id from `Date.now()`
and the trimmed text. -/
structure TodoTask where
  id : Int
  text : String
deriving DecidableEq

/-- The React component state of `App.jsx`: the counter, the input text
and the task list, each one a `useState` hook. -/
structure AppState where
  count : Int
  text : String
  tasks : List TodoTask
deriving DecidableEq

/-- Model of `addTask` (`App.jsx` lines 31-44): trim the input, return
unchanged on empty, otherwise append one task (id `Date.now()`, the
trimmed text) and clear the input. `now` is the value of `Date.now()`. -/
def addTask (now : Int) (st : AppState) : AppState :=
  let trimmedText := jsTrim st.text
  if trimmedText = "" then st
  else AppState.mk st.count ""
    (st.tasks ++ [TodoTask.mk now trimmedText])

/-! ### Library lemmas about the dedup and slash-stripping models -/

theorem dedupAux_mem (l : List String) (seen : List String) (y : String) :
    y ∈ dedupAux seen l ↔ y ∈ l ∧ y ∉ seen := by
  induction l generalizing seen with
  | nil => simp [dedupAux]
  | cons x xs ih =>
    unfold dedupAux
    by_cases hx : x ∈ seen
    · rw [if_pos hx, ih]
      simp only [List.mem_cons]
      constructor
      · rintro ⟨h1, h2⟩
        exact ⟨Or.inr h1, h2⟩
      · rintro ⟨h1, h2⟩
        rcases h1 with rfl | h1
        · exact absurd hx h2
        · exact ⟨h1, h2⟩
    · rw [if_neg hx]
      simp only [List.mem_cons, ih]
      constructor
      · rintro (rfl | ⟨h1, h2⟩)
        · exact ⟨Or.inl rfl, hx⟩
        · push_neg at h2
          exact ⟨Or.inr h1, h2.2⟩
      · rintro ⟨rfl | h1, h2⟩
        · exact Or.inl rfl
        · by_cases hyx : y = x
          · exact Or.inl hyx
          · refine Or.inr ⟨h1, ?_⟩
            push_neg
            exact ⟨hyx, h2⟩

theorem jsSetDedup_mem (l : List String) (y : String) :
    y ∈ jsSetDedup l ↔ y ∈ l := by
  simp [jsSetDedup, dedupAux_mem]

theorem dedupAux_nodup (l : List String) (seen : List String) :
    (dedupAux seen l).Nodup := by
  induction l generalizing seen with
  | nil => simp [dedupAux]
  | cons x xs ih =>
    unfold dedupAux
    by_cases hx : x ∈ seen
    · rw [if_pos hx]; exact ih seen
    · rw [if_neg hx]
      refine List.nodup_cons.mpr ⟨?_, ih (x :: seen)⟩
      rw [dedupAux_mem]
      rintro ⟨-, h2⟩
      exact h2 (List.mem_cons_self x seen)

theorem jsSetDedup_nodup (l : List String) : (jsSetDedup l).Nodup :=
  dedupAux_nodup l []

theorem dedupAux_append_pair (l : List String) (a : String) (seen : List String) :
    dedupAux seen (l ++ [a, a]) = dedupAux seen (l ++ [a]) := by
  induction l generalizing seen with
  | nil =>
    by_cases ha : a ∈ seen
    · simp [dedupAux, ha]
    · simp [dedupAux, ha]
  | cons x xs ih =>
    simp only [List.cons_append]
    unfold dedupAux
    by_cases hx : x ∈ seen
    · rw [if_pos hx, if_pos hx, ih seen]
    · rw [if_neg hx, if_neg hx, ih (x :: seen)]

theorem jsSetDedup_append_pair (l : List String) (a : String) :
    jsSetDedup (l ++ [a, a]) = jsSetDedup (l ++ [a]) :=
  dedupAux_append_pair l a []

theorem headIsSlash_dropSlashHead (r : List Char)
    (h : (match r with | c :: d :: _ => c == '/' && d == '/' | _ => false) = false) :
    headIsSlash (dropSlashHead r) = false := by
  rcases r with _ | ⟨c, t⟩
  · rfl
  · rcases t with _ | ⟨d, u⟩
    · by_cases hc : c = '/'
      · subst hc; simp [dropSlashHead, headIsSlash]
      · simp [dropSlashHead, headIsSlash, hc]
    · by_cases hc : c = '/'
      · subst hc
        simp only [beq_self_eq_true, Bool.true_and] at h
        simp [dropSlashHead, headIsSlash, h]
      · simp [dropSlashHead, headIsSlash, hc]

theorem endsInSlash_strip (s : String) (h : endsInSlashSlash s = false) :
    endsInSlash (stripTrailingSlash s) = false := by
  show headIsSlash (dropSlashHead s.data.reverse).reverse.reverse = false
  rw [List.reverse_reverse]
  exact headIsSlash_dropSlashHead s.data.reverse h

theorem jsTrim_empty : jsTrim "" = "" := rfl

/-! ### Claim theorems for the allow-list builder -/

/-- C1, counterexample: `build(["http://a.com/", "http://a.com"], "production")`
does not have exactly one element — deduplication runs before the trailing
slash is stripped, so the result is `["http://a.com", "http://a.com"]`,
a two-element list. -/
theorem build_production_dedup_before_slash_cex :
    configureAllowedOrigins ["http://a.com/", "http://a.com"] "production"
        = ["http://a.com", "http://a.com"] ∧
      (configureAllowedOrigins ["http://a.com/", "http://a.com"] "production").length ≠ 1 := by
  decide

/-- C1, amended: the elements of `build(B, "production")` are exactly (as a
set) the slash-normalized images of the entries of `B` whose trim is
non-empty; in particular `http://localhost:5173` occurs only when some entry
of `B` trims and normalizes to it. (Deduplication happens before slash
stripping, so the result list may repeat a value, as the counterexample
shows.) -/
theorem build_production_mem_spec (B : List String) (y : String) :
    y ∈ configureAllowedOrigins B "production" ↔
      ∃ x ∈ B, jsTrim x ≠ "" ∧ stripTrailingSlash (jsTrim x) = y := by
  have hkey : configureAllowedOrigins B "production"
      = ((jsSetDedup (CONFIG_ALLOWED_ORIGINS B)).filter (fun o => o != "")).map
          stripTrailingSlash := rfl
  rw [hkey]
  simp only [List.mem_map, List.mem_filter, jsSetDedup_mem, CONFIG_ALLOWED_ORIGINS,
    bne_iff_ne, ne_eq]
  constructor
  · rintro ⟨x, ⟨⟨b, ⟨hbB, hbne⟩, rfl⟩, hxne⟩, rfl⟩
    exact ⟨b, hbB, hxne, rfl⟩
  · rintro ⟨b, hbB, htne, rfl⟩
    have hbne : ¬b = "" := by
      rintro rfl
      exact htne jsTrim_empty
    exact ⟨jsTrim b, ⟨⟨b, ⟨hbB, hbne⟩, rfl⟩, htne⟩, rfl⟩

/-- C2, counterexample: the final allow-list can contain an element ending
in `/` (only one trailing slash is stripped) and can contain two equal
elements (entries differing only in a trailing slash are not merged by the
`Set`, and collapse only after stripping). -/
theorem allowList_invariant_cex :
    (∃ o ∈ configureAllowedOrigins ["http://x.com//"] "production", endsInSlash o = true) ∧
      ¬ (configureAllowedOrigins ["http://a.org/", "http://a.org"] "production").Nodup := by
  decide

/-- C2, amended: the invariant holds provided no working entry (trimmed
base entries plus the conditional development origin) ends in `//` and
slash-stripping is injective on the working entries: then every element of
the final allow-list is slash-free at its end and the list has no
duplicates. -/
theorem allowList_norm_nodup_of_safe (base : List String) (env : String)
    (h1 : ∀ s ∈ (configureAllowedOriginsS (CONFIG_ALLOWED_ORIGINS base) env).1,
        endsInSlashSlash s = false)
    (h2 : ∀ s ∈ (configureAllowedOriginsS (CONFIG_ALLOWED_ORIGINS base) env).1,
        ∀ t ∈ (configureAllowedOriginsS (CONFIG_ALLOWED_ORIGINS base) env).1,
          s ≠ t → stripTrailingSlash s ≠ stripTrailingSlash t) :
    (∀ o ∈ configureAllowedOrigins base env, endsInSlash o = false) ∧
      (configureAllowedOrigins base env).Nodup := by
  have hkey : configureAllowedOrigins base env
      = ((jsSetDedup ((configureAllowedOriginsS (CONFIG_ALLOWED_ORIGINS base) env).1)).filter
          (fun o => o != "")).map stripTrailingSlash := rfl
  constructor
  · intro o ho
    rw [hkey] at ho
    obtain ⟨x, hx, rfl⟩ := List.mem_map.mp ho
    have hxw := (jsSetDedup_mem _ x).mp (List.mem_filter.mp hx).1
    exact endsInSlash_strip x (h1 x hxw)
  · rw [hkey]
    refine List.Nodup.map_on ?_ ((jsSetDedup_nodup _).filter _)
    intro x hx y hy hxy
    have hxw := (jsSetDedup_mem _ x).mp (List.mem_filter.mp hx).1
    have hyw := (jsSetDedup_mem _ y).mp (List.mem_filter.mp hy).1
    by_contra hne
    exact h2 x hxw y hyw hne hxy

/-- Witness for the amended C2 at a concrete safe configuration. -/
theorem allowList_norm_nodup_of_safe_witness :
    (∀ o ∈ configureAllowedOrigins ["http://a.com", "http://b.com/"] "production",
        endsInSlash o = false) ∧
      (configureAllowedOrigins ["http://a.com", "http://b.com/"] "production").Nodup :=
  allowList_norm_nodup_of_safe ["http://a.com", "http://b.com/"] "production"
    (by decide) (by decide)

/-- C3: `build(B, "development")` always contains `http://localhost:5173`,
whatever the base sequence is. -/
theorem build_development_contains_localhost (B : List String) :
    "http://localhost:5173" ∈ configureAllowedOrigins B "development" := by
  have hkey : configureAllowedOrigins B "development"
      = ((jsSetDedup (CONFIG_ALLOWED_ORIGINS B ++ ["http://localhost:5173"])).filter
          (fun o => o != "")).map stripTrailingSlash := rfl
  rw [hkey]
  refine List.mem_map.mpr ⟨"http://localhost:5173", ?_, by decide⟩
  refine List.mem_filter.mpr ⟨?_, by decide⟩
  exact (jsSetDedup_mem _ _).mpr (List.mem_append_right _ (List.mem_singleton.mpr rfl))

/-- C4: empty and whitespace-only entries are discarded:
`build(["", "  ", "http://b.com"], "production") = ["http://b.com"]`. -/
theorem build_filters_empty_entries :
    configureAllowedOrigins ["", "  ", "http://b.com"] "production" = ["http://b.com"] := by
  decide

/-- C5, counterexample: the builder is not side-effect free — when
`NODE_ENV` is `development` the call pushes `http://localhost:5173` onto
the module-level `CONFIG_ALLOWED_ORIGINS` array it reads, so the
configuration is modified (here: from `[]` to a non-empty array). -/
theorem configureAllowedOrigins_mutates_cex :
    (configureAllowedOriginsS [] "development").1 ≠ [] := by
  decide

/-- C5, amended: in a non-development environment the builder leaves the
configuration array unchanged (it is pure), and in every environment a
repeated call — observing the mutation the first call left behind —
returns the same result as a single call. -/
theorem configureAllowedOrigins_repeatable (st : List String) (env : String) :
    (configureAllowedOriginsS (configureAllowedOriginsS st env).1 env).2
        = (configureAllowedOriginsS st env).2 ∧
      (env ≠ "development" → (configureAllowedOriginsS st env).1 = st) := by
  constructor
  · by_cases he : env = "development"
    · subst he
      have h1 : (configureAllowedOriginsS st "development").1
          = st ++ ["http://localhost:5173"] := rfl
      have key : ∀ l : List String, (configureAllowedOriginsS l "development").2
          = ((jsSetDedup (l ++ ["http://localhost:5173"])).filter (fun o => o != "")).map
              stripTrailingSlash := fun l => rfl
      rw [h1, key, key, List.append_assoc]
      have h2 : (["http://localhost:5173"] ++ ["http://localhost:5173"] : List String)
          = ["http://localhost:5173", "http://localhost:5173"] := rfl
      rw [h2, jsSetDedup_append_pair]
    · have h1 : (configureAllowedOriginsS st env).1 = st := by
        simp [configureAllowedOriginsS, he]
      rw [h1]
  · intro he
    simp [configureAllowedOriginsS, he]

/-- Witness for the amended C5 at a concrete input. -/
theorem configureAllowedOrigins_repeatable_witness :
    (configureAllowedOriginsS (configureAllowedOriginsS ["http://a.com"] "production").1
        "production").2
      = (configureAllowedOriginsS ["http://a.com"] "production").2 ∧
      (configureAllowedOriginsS ["http://a.com"] "production").1 = ["http://a.com"] :=
  ⟨(configureAllowedOrigins_repeatable ["http://a.com"] "production").1,
    (configureAllowedOrigins_repeatable ["http://a.com"] "production").2 (by decide)⟩

/-- C9: the two copies of the allow-list construction in the source compute
the same function of the base sequence and the environment string. -/
theorem configureAllowedOrigins_copies_agree (base : List String) (env : String) :
    configureAllowedOrigins base env = configureAllowedOrigins2 base env := rfl

/-! ### Claim theorems for the request pipeline and the frontend -/

/-- C6: the cors origin callback allows a request exactly when its declared
origin is absent, empty, or a member of the allow-list; in the remaining
case (non-empty origin not in the list) it rejects with an error message
that names the rejected origin. -/
theorem corsOriginCheck_reject_iff (A : List String) (o? : Option String) :
    (corsOriginCheck A o? = CorsResult.allow ↔
        ¬ ∃ o, o? = some o ∧ o ≠ "" ∧ o ∉ A) ∧
      (∀ o, o? = some o → o ≠ "" → o ∉ A →
        corsOriginCheck A o? = CorsResult.reject ("CORS blocked for origin: " ++ o)) := by
  refine ⟨?_, ?_⟩
  · cases o? with
    | none => simp [corsOriginCheck]
    | some o =>
      by_cases h0 : o = ""
      · subst h0
        simp [corsOriginCheck]
      · by_cases hA : o ∈ A
        · simp [corsOriginCheck, h0, hA]
        · simp only [corsOriginCheck, if_neg h0, if_neg hA]
          constructor
          · intro h
            exact CorsResult.noConfusion h
          · intro hcon
            exact absurd ⟨o, rfl, h0, hA⟩ hcon
  · rintro o rfl h0 hA
    simp [corsOriginCheck, h0, hA]

/-- Witness for C6: `http://evil.com` against an allow-list not containing
it is rejected, with the origin named in the error. -/
theorem corsOriginCheck_reject_iff_witness :
    corsOriginCheck ["http://a.com"] (some "http://evil.com")
      = CorsResult.reject ("CORS blocked for origin: " ++ "http://evil.com") :=
  (corsOriginCheck_reject_iff ["http://a.com"] (some "http://evil.com")).2
    "http://evil.com" rfl (by decide) (by decide)

/-- C7: `GET /` answers 200 with the fixed greeting, and every request
matching neither `GET /` nor `GET /health` falls through to the catch-all,
answering 404 with the JSON body `{error: "Not found"}`. -/
theorem appRoute_spec (ctx : ServerCtx) (req : HttpRequest) :
    appRoute ctx (HttpRequest.mk "GET" "/")
        = HttpResponse.mk 200 (ResBody.text "welcome to the default page") ∧
      (¬ (req.method = "GET" ∧ (req.path = "/" ∨ req.path = "/health")) →
        appRoute ctx req
          = HttpResponse.mk 404
              (ResBody.json (JsValue.obj [("error", JsValue.str "Not found")]))) := by
  constructor
  · rfl
  · intro h
    have hc1 : ¬(req.method = "GET" ∧ req.path = "/") := fun hc => h ⟨hc.1, Or.inl hc.2⟩
    have hc2 : ¬(req.method = "GET" ∧ req.path = "/health") := fun hc => h ⟨hc.1, Or.inr hc.2⟩
    unfold appRoute
    rw [if_neg hc1, if_neg hc2]
    rfl

/-- Witness for C7: the two concrete routing examples of the spec,
`GET /` and `GET /nope`. -/
theorem appRoute_spec_witness :
    appRoute (ServerCtx.mk 5000 "production" ["http://a.com"] none "2026-01-01T00:00:00.000Z" 0)
        (HttpRequest.mk "GET" "/")
        = HttpResponse.mk 200 (ResBody.text "welcome to the default page") ∧
      appRoute (ServerCtx.mk 5000 "production" ["http://a.com"] none "2026-01-01T00:00:00.000Z" 0)
        (HttpRequest.mk "GET" "/nope")
        = HttpResponse.mk 404
            (ResBody.json (JsValue.obj [("error", JsValue.str "Not found")])) :=
  ⟨(appRoute_spec
      (ServerCtx.mk 5000 "production" ["http://a.com"] none "2026-01-01T00:00:00.000Z" 0)
      (HttpRequest.mk "GET" "/nope")).1,
    (appRoute_spec
      (ServerCtx.mk 5000 "production" ["http://a.com"] none "2026-01-01T00:00:00.000Z" 0)
      (HttpRequest.mk "GET" "/nope")).2 (by decide)⟩

/-- C8: the health response is the 200 JSON of `healthStatus`, which always
carries all nine documented fields, and `gemini.model` is the sentinel
`"unavailable"` exactly when `gemini.configured` is `false`; when it is
`true` the model is the resolved name `"gemini-2.5-flash"`. -/
theorem healthStatus_shape (ctx : ServerCtx) :
    handleHealthCheck ctx = HttpResponse.mk 200 (ResBody.json (healthStatus ctx)) ∧
      (healthStatus ctx).getPath ["status"] = some (JsValue.str "healthy") ∧
      (healthStatus ctx).getPath ["timestamp"] = some (JsValue.str ctx.timestamp) ∧
      (healthStatus ctx).getPath ["api", "running"] = some (JsValue.bool true) ∧
      (healthStatus ctx).getPath ["api", "port"] = some (JsValue.num ctx.configPort) ∧
      (healthStatus ctx).getPath ["api", "env"] = some (JsValue.str ctx.configNodeEnv) ∧
      (healthStatus ctx).getPath ["api", "allowedOrigins"]
        = some (JsValue.arr (ctx.allowedOrigins.map JsValue.str)) ∧
      (healthStatus ctx).getPath ["gemini", "configured"]
        = some (JsValue.bool (jsTruthyStr ctx.googleApiKey)) ∧
      (healthStatus ctx).getPath ["uptime"] = some (JsValue.num ctx.uptime) ∧
      ((healthStatus ctx).getPath ["gemini", "model"] = some (JsValue.str "unavailable") ↔
        (healthStatus ctx).getPath ["gemini", "configured"] = some (JsValue.bool false)) ∧
      (jsTruthyStr ctx.googleApiKey = true →
        (healthStatus ctx).getPath ["gemini", "model"]
          = some (JsValue.str "gemini-2.5-flash")) := by
  have hmodel : (healthStatus ctx).getPath ["gemini", "model"]
      = some (JsValue.str
          (if jsTruthyStr ctx.googleApiKey then "gemini-2.5-flash" else "unavailable")) := rfl
  have hconf : (healthStatus ctx).getPath ["gemini", "configured"]
      = some (JsValue.bool (jsTruthyStr ctx.googleApiKey)) := rfl
  refine ⟨rfl, rfl, rfl, rfl, rfl, rfl, rfl, rfl, rfl, ?_, ?_⟩
  · rw [hmodel, hconf]
    cases hb : jsTruthyStr ctx.googleApiKey
    · simp
    · simp
  · intro h
    rw [hmodel, h]
    rfl

/-- Witness for C8: a context with no API key yields the sentinel model
name, a context with a key yields the resolved model name. -/
theorem healthStatus_shape_witness :
    (healthStatus (ServerCtx.mk 5000 "production" [] (some "k") "t" 7)).getPath
        ["gemini", "model"] = some (JsValue.str "gemini-2.5-flash") :=
  (healthStatus_shape (ServerCtx.mk 5000 "production" [] (some "k") "t" 7)).2.2.2.2.2.2.2.2.2.2
    (by decide)

/-- C10: `addTask` is a no-op when the input trims to empty, and otherwise
appends exactly one task carrying the trimmed text, preserves the existing
tasks and the counter, and clears the input. -/
theorem addTask_spec (now : Int) (st : AppState) :
    (jsTrim st.text = "" → addTask now st = st) ∧
      (jsTrim st.text ≠ "" →
        (addTask now st).tasks = st.tasks ++ [TodoTask.mk now (jsTrim st.text)] ∧
          (addTask now st).count = st.count ∧ (addTask now st).text = "") := by
  constructor
  · intro h
    simp [addTask, h]
  · intro h
    simp [addTask, h]

/-- Witness for C10: a whitespace-only input is a no-op; a real input is
appended trimmed while the counter and the old task survive. -/
theorem addTask_spec_witness :
    addTask 1 (AppState.mk 0 "   " []) = AppState.mk 0 "   " [] ∧
      ((addTask 2 (AppState.mk 3 " buy milk " [TodoTask.mk 1 "a"])).tasks
          = [TodoTask.mk 1 "a", TodoTask.mk 2 "buy milk"] ∧
        (addTask 2 (AppState.mk 3 " buy milk " [TodoTask.mk 1 "a"])).count = 3 ∧
        (addTask 2 (AppState.mk 3 " buy milk " [TodoTask.mk 1 "a"])).text = "") :=
  ⟨(addTask_spec 1 (AppState.mk 0 "   " [])).1 (by decide),
    (addTask_spec 2 (AppState.mk 3 " buy milk " [TodoTask.mk 1 "a"])).2 (by decide)⟩
